import Mathlib

set_option maxHeartbeats 1000000

/-!
Shallow embedding of the `logger` Go package (src/logger.go, current revision:
the section before the first revision separator).  Go strings are modelled as
`List Char`; every string handled by the claims is ASCII, so byte length and
byte indexing coincide with character length and indexing.  The timestamp
produced by `time.Now().Format(LogDateFormat)` is an input parameter `ts` of
the message builder.  Sink I/O is modelled as always succeeding (a successful
`File.Write` returns the byte count); the `err != nil` panic branches are
therefore never taken in the model.  Go panics are modelled by dedicated
result constructors.
-/

/-- Go constant `LogLevelFatal = -16` (src/logger.go line 17). -/
def LogLevelFatal : Int := -16

/-- Go constant `LogLevelError = -8`. -/
def LogLevelError : Int := -8

/-- Go constant `LogLevelWarn = -4`. -/
def LogLevelWarn : Int := -4

/-- Go constant `LogLevelInfo = 0`. -/
def LogLevelInfo : Int := 0

/-- Go constant `LogLevelVerbose = 4`. -/
def LogLevelVerbose : Int := 4

/-- Go constant `LogLevelDebug = 8`. -/
def LogLevelDebug : Int := 8

/-- Go constant `LogLevelTrace = 16`. -/
def LogLevelTrace : Int := 16

/-- The six threshold-gated levels, in the order {Trace, Debug, Verbose, Info, Warn, Error}. -/
def gatedLevels : List Int :=
  [LogLevelTrace, LogLevelDebug, LogLevelVerbose, LogLevelInfo, LogLevelWarn, LogLevelError]

/-- Output sinks: a `*os.File`; `stderr` models `os.Stderr`, `handle n` any other
open file with name `n`.  A Go `nil` file pointer is modelled as `Option.none`
at use sites. -/
inductive Sink where
  | stderr : Sink
  | handle : List Char → Sink
deriving DecidableEq

/-- Go `(*os.File).Name()` for the sinks of the model. -/
def Sink.name : Sink → List Char
  | Sink.stderr => "/dev/stderr".toList
  | Sink.handle n => n

/-- The `Logger` struct: `Level LogLevel; Output *os.File` (the mutex only
serializes writes and carries no observable per-call state). -/
structure Logger where
  Level : Int
  Output : Option Sink
deriving DecidableEq

/-- Go `func (l LogLevel) String() string` (src/logger.go lines 52-71),
with the switch cases in source order. -/
def levelString (l : Int) : List Char :=
  if l = LogLevelDebug then "Debug".toList
  else if l = LogLevelError then "Error".toList
  else if l = LogLevelFatal then "Fatal".toList
  else if l = LogLevelInfo then "Info".toList
  else if l = LogLevelTrace then "Trace".toList
  else if l = LogLevelVerbose then "Verbose".toList
  else if l = LogLevelWarn then "Warn".toList
  else "Unknown".toList

/-- Go `strings.Split(s, sep)` for a one-character separator:
`Split("", sep) = [""]`, and splitting around every separator occurrence. -/
def goSplit (sep : Char) : List Char → List (List Char)
  | [] => [[]]
  | c :: rest =>
    if c = sep then [] :: goSplit sep rest
    else
      match goSplit sep rest with
      | [] => [[c]]
      | h :: t => (c :: h) :: t

/-- Go `strings.TrimRight(s, " ")`: drop trailing space characters. -/
def trimRightSpaces (s : List Char) : List Char :=
  (s.reverse.dropWhile (fun c => c = ' ')).reverse

/-- The header `prefix` of `buildMessage` (src/logger.go line 79):
timestamp, one space, first byte of the level name, one space. -/
def headerOf (ts : List Char) (l : Int) : List Char :=
  ts ++ [' '] ++ (levelString l).take 1 ++ [' ']

/-- The inner `for ix, line := range lines` loop of `buildMessage`
(src/logger.go lines 84-92): skip empty lines; the line at index 0 gets the
header, later lines get header-length spaces; each emitted line ends in a
newline. -/
def emitLines (pre : List Char) (ix : Nat) : List (List Char) → List Char
  | [] => []
  | line :: rest =>
    (if line = [] then []
     else if ix = 0 then pre ++ line ++ ['\n']
     else List.replicate pre.length ' ' ++ line ++ ['\n']) ++
    emitLines pre (ix + 1) rest

/-- One iteration of the outer `for _, v := range a` loop of `buildMessage`:
split the argument on newlines and run the line loop from index 0. -/
def emitArg (pre : List Char) (v : List Char) : List Char :=
  emitLines pre 0 (goSplit '\n' v)

/-- Go `func buildMessage(l LogLevel, a ...any) string`
(src/logger.go lines 75-101): concatenate every argument's emitted lines and
trim trailing spaces. -/
def buildMessage (ts : List Char) (l : Int) (a : List (List Char)) : List Char :=
  trimRightSpaces ((a.map (emitArg (headerOf ts l))).flatten)

/-- Result of `Logger.Write`: the `panic("file is nil")` branch, the
out-of-range panic from `bytes[len(bytes)-1]` on an empty payload, or a
successful write of the final payload returning the byte count. -/
inductive WriteResult where
  | panicNilFile : WriteResult
  | panicIndex : WriteResult
  | written : List Char → Nat → WriteResult
deriving DecidableEq

/-- Go `func (writer Logger) Write(bytes []byte) (int, error)`
(src/logger.go lines 151-165): panic when the output is nil, panic indexing
the last byte of an empty payload, append a newline when the last byte is not
one, then write to the sink. -/
def Logger.Write (w : Logger) (bytes : List Char) : WriteResult :=
  match w.Output with
  | none => WriteResult.panicNilFile
  | some _ =>
    match bytes.getLast? with
    | none => WriteResult.panicIndex
    | some c =>
      if c = '\n' then WriteResult.written bytes bytes.length
      else WriteResult.written (bytes ++ ['\n']) (bytes.length + 1)

/-- Observable outcome of one logging call: gate closed (nothing happens),
payload written to the sink, a panic, or a write followed by `os.Exit`. -/
inductive CallResult where
  | noop : CallResult
  | wrote : List Char → CallResult
  | panicked : CallResult
  | exited : Nat → List Char → CallResult
deriving DecidableEq

/-- Shared body of the six plain gated methods (`Trace`, `Debug`, `Verbose`,
`Info`, `Warn`, `Error`, e.g. src/logger.go lines 168-179 for `Debug`):
`if writer.Level >= lvl { message := buildMessage(lvl, a...); writer.Write(message) }`. -/
def logAt (w : Logger) (ts : List Char) (lvl : Int) (a : List (List Char)) : CallResult :=
  if w.Level ≥ lvl then
    match w.Write (buildMessage ts lvl a) with
    | WriteResult.written p _ => CallResult.wrote p
    | _ => CallResult.panicked
  else CallResult.noop

/-- Go `func (writer Logger) Trace(a ...any)`. -/
def Logger.Trace (w : Logger) (ts : List Char) (a : List (List Char)) : CallResult :=
  logAt w ts LogLevelTrace a

/-- Go `func (writer Logger) Debug(a ...any)` (src/logger.go lines 168-179). -/
def Logger.Debug (w : Logger) (ts : List Char) (a : List (List Char)) : CallResult :=
  logAt w ts LogLevelDebug a

/-- Go `func (writer Logger) Verbose(a ...any)`. -/
def Logger.Verbose (w : Logger) (ts : List Char) (a : List (List Char)) : CallResult :=
  logAt w ts LogLevelVerbose a

/-- Go `func (writer Logger) Info(a ...any)` (src/logger.go lines 253-264). -/
def Logger.Info (w : Logger) (ts : List Char) (a : List (List Char)) : CallResult :=
  logAt w ts LogLevelInfo a

/-- Go `func (writer Logger) Warn(a ...any)`. -/
def Logger.Warn (w : Logger) (ts : List Char) (a : List (List Char)) : CallResult :=
  logAt w ts LogLevelWarn a

/-- Go `func (writer Logger) Error(a ...any)`. -/
def Logger.Error (w : Logger) (ts : List Char) (a : List (List Char)) : CallResult :=
  logAt w ts LogLevelError a

/-- Shared body of the six formatted gated methods (src/logger.go lines
182-194 for `Debugf`): `msg := fmt.Sprintf(format, a...)` is modelled by the
already-substituted string `msg`; the body is then
`message := buildMessage(lvl, msg); writer.Write(message)` under the same gate. -/
def logfAt (w : Logger) (ts : List Char) (lvl : Int) (msg : List Char) : CallResult :=
  if w.Level ≥ lvl then
    match w.Write (buildMessage ts lvl [msg]) with
    | WriteResult.written p _ => CallResult.wrote p
    | _ => CallResult.panicked
  else CallResult.noop

/-- Go `func (writer Logger) Tracef(format string, a ...any)`;
`msg` is the result of the printf substitution. -/
def Logger.Tracef (w : Logger) (ts : List Char) (msg : List Char) : CallResult :=
  logfAt w ts LogLevelTrace msg

/-- Go `func (writer Logger) Debugf(format string, a ...any)`
(src/logger.go lines 182-194); `msg` is the result of the printf substitution. -/
def Logger.Debugf (w : Logger) (ts : List Char) (msg : List Char) : CallResult :=
  logfAt w ts LogLevelDebug msg

/-- Go `func (writer Logger) Verbosef(format string, a ...any)`. -/
def Logger.Verbosef (w : Logger) (ts : List Char) (msg : List Char) : CallResult :=
  logfAt w ts LogLevelVerbose msg

/-- Go `func (writer Logger) Infof(format string, a ...any)`. -/
def Logger.Infof (w : Logger) (ts : List Char) (msg : List Char) : CallResult :=
  logfAt w ts LogLevelInfo msg

/-- Go `func (writer Logger) Warnf(format string, a ...any)`. -/
def Logger.Warnf (w : Logger) (ts : List Char) (msg : List Char) : CallResult :=
  logfAt w ts LogLevelWarn msg

/-- Go `func (writer Logger) Errorf(format string, a ...any)`. -/
def Logger.Errorf (w : Logger) (ts : List Char) (msg : List Char) : CallResult :=
  logfAt w ts LogLevelError msg

/-- Go `func (writer Logger) Fatal(a ...any)` (src/logger.go lines 226-236):
no gate; build, write, then `os.Exit(1)`; a panic inside `Write` aborts before
the exit. -/
def Logger.Fatal (w : Logger) (ts : List Char) (a : List (List Char)) : CallResult :=
  match w.Write (buildMessage ts LogLevelFatal a) with
  | WriteResult.written p _ => CallResult.exited 1 p
  | _ => CallResult.panicked

/-- Go `func (writer Logger) Fatalf(format string, a ...any)`
(src/logger.go lines 239-250); `msg` is the result of the printf substitution. -/
def Logger.Fatalf (w : Logger) (ts : List Char) (msg : List Char) : CallResult :=
  match w.Write (buildMessage ts LogLevelFatal [msg]) with
  | WriteResult.written p _ => CallResult.exited 1 p
  | _ => CallResult.panicked

/-- Result of `SetOutput`: either the nil-dereference panic from evaluating
`file.Name()` on a nil argument (carrying the state already mutated before the
panic), or normal return carrying the new state and the outcome of the
self-describing `Debugf` call. -/
inductive SetOutputResult where
  | panicked : Logger → SetOutputResult
  | ok : Logger → CallResult → SetOutputResult
deriving DecidableEq

/-- Go `func (writer *Logger) SetOutput(file *os.File)` (src/logger.go lines
134-148): under the lock, a nil argument resets `Output` to `os.Stderr`, a
non-nil one installs it; after unlocking, the call site evaluates
`file.Name()` on the original argument, which dereferences nil when the
argument was nil, and otherwise calls `Debugf` whose printf substitution of
`output set to %s` yields the message `output set to <name>` plus a newline. -/
def Logger.SetOutput (w : Logger) (ts : List Char) (file : Option Sink) : SetOutputResult :=
  let w2 : Logger :=
    { w with Output := some (match file with | none => Sink.stderr | some f => f) }
  match file with
  | none => SetOutputResult.panicked w2
  | some f =>
      SetOutputResult.ok w2
        (Logger.Debugf w2 ts ("output set to ".toList ++ f.name ++ ['\n']))

/-- Fixed sample timestamp in the `LogDateFormat` shape, used by concrete
witnesses and counterexamples. -/
def ts0 : List Char := "2024-01-02 03:04:05.006 UTC".toList

-- ------------------------------------------------------------------
-- Helper lemmas about the message builder and the write primitive
-- ------------------------------------------------------------------

/-- Splitting a separator-free string returns the single-element list. -/
theorem goSplit_no_sep (sep : Char) :
    ∀ s : List Char, (∀ c ∈ s, c ≠ sep) → goSplit sep s = [s] := by
  intro s
  induction s with
  | nil => intro _; rfl
  | cons c rest ih =>
      intro h
      have hc : c ≠ sep := h c (List.mem_cons_self c rest)
      have hr : goSplit sep rest = [rest] := ih fun d hd => h d (List.mem_cons_of_mem c hd)
      simp [goSplit, hc, hr]

/-- Splitting peels off a separator-free first segment. -/
theorem goSplit_append_sep (sep : Char) :
    ∀ s1 s2 : List Char, (∀ c ∈ s1, c ≠ sep) →
      goSplit sep (s1 ++ sep :: s2) = s1 :: goSplit sep s2 := by
  intro s1
  induction s1 with
  | nil => intro s2 _; simp [goSplit]
  | cons c rest ih =>
      intro s2 h
      have hc : c ≠ sep := h c (List.mem_cons_self c rest)
      have hr := ih s2 fun d hd => h d (List.mem_cons_of_mem c hd)
      simp [goSplit, hc, hr]

/-- Splitting a string that starts with the separator yields a leading empty segment. -/
theorem goSplit_cons_self (sep : Char) (s : List Char) :
    goSplit sep (sep :: s) = [] :: goSplit sep s := by
  simp [goSplit]

/-- Every segment of the split of an all-separator string is empty. -/
theorem goSplit_all_sep (sep : Char) :
    ∀ s : List Char, (∀ c ∈ s, c = sep) → ∀ p ∈ goSplit sep s, p = [] := by
  intro s
  induction s with
  | nil =>
      intro _ p hp
      simp [goSplit] at hp
      exact hp
  | cons c rest ih =>
      intro h p hp
      have hc : c = sep := h c (List.mem_cons_self c rest)
      rw [hc, goSplit_cons_self] at hp
      rcases List.mem_cons.mp hp with he | hm
      · exact he
      · exact ih (fun d hd => h d (List.mem_cons_of_mem c hd)) p hm

/-- Concatenation preserves the ends-in-newline-or-empty invariant. -/
theorem endsNL_append {x y : List Char}
    (hx : x = [] ∨ x.getLast? = some '\n') (hy : y = [] ∨ y.getLast? = some '\n') :
    x ++ y = [] ∨ (x ++ y).getLast? = some '\n' := by
  rcases hy with rfl | hy
  · simpa using hx
  · right
    rw [List.getLast?_append, hy]
    rfl

/-- Every block emitted by the line loop is empty or ends in a newline. -/
theorem emitLines_endsNL (pre : List Char) :
    ∀ (lines : List (List Char)) (ix : Nat),
      emitLines pre ix lines = [] ∨ (emitLines pre ix lines).getLast? = some '\n' := by
  intro lines
  induction lines with
  | nil => intro ix; left; rfl
  | cons line rest ih =>
      intro ix
      refine endsNL_append ?_ (ih (ix + 1))
      by_cases h0 : line = []
      · left; simp [h0]
      · by_cases hix : ix = 0
        · right; simp [h0, hix, List.getLast?_append, List.getLast?_concat]
        · right; simp [h0, hix, List.getLast?_append, List.getLast?_concat]

/-- A flattened list of empty-or-newline-terminated blocks is itself one. -/
theorem flatten_endsNL :
    ∀ parts : List (List Char), (∀ p ∈ parts, p = [] ∨ p.getLast? = some '\n') →
      parts.flatten = [] ∨ parts.flatten.getLast? = some '\n' := by
  intro parts
  induction parts with
  | nil => intro _; left; rfl
  | cons p rest ih =>
      intro h
      rw [List.flatten_cons]
      exact endsNL_append (h p (List.mem_cons_self p rest))
        (ih fun q hq => h q (List.mem_cons_of_mem p hq))

/-- Trimming trailing spaces leaves an empty or newline-terminated string alone. -/
theorem trimRightSpaces_endsNL {s : List Char}
    (h : s = [] ∨ s.getLast? = some '\n') : trimRightSpaces s = s := by
  rcases h with rfl | h
  · rfl
  · have hh : s.reverse.head? = some '\n' := by rw [List.head?_reverse]; exact h
    cases hr : s.reverse with
    | nil => rw [hr] at hh; cases hh
    | cons c t =>
        have hc : c = '\n' := by
          rw [hr] at hh
          simpa using hh
        unfold trimRightSpaces
        rw [hr, List.dropWhile_cons_of_neg, ← hr, List.reverse_reverse]
        simp [hc]

/-- The trailing-space trim in `buildMessage` is the identity: every emitted
block already ends in a newline. -/
theorem buildMessage_eq_flatten (ts : List Char) (l : Int) (a : List (List Char)) :
    buildMessage ts l a = (a.map (emitArg (headerOf ts l))).flatten := by
  unfold buildMessage
  refine trimRightSpaces_endsNL (flatten_endsNL _ ?_)
  intro p hp
  rcases List.mem_map.mp hp with ⟨v, _, rfl⟩
  exact emitLines_endsNL _ _ 0

/-- The built message is empty or ends in a newline. -/
theorem buildMessage_endsNL (ts : List Char) (l : Int) (a : List (List Char)) :
    buildMessage ts l a = [] ∨ (buildMessage ts l a).getLast? = some '\n' := by
  rw [buildMessage_eq_flatten]
  refine flatten_endsNL _ ?_
  intro p hp
  rcases List.mem_map.mp hp with ⟨v, _, rfl⟩
  exact emitLines_endsNL _ _ 0

/-- A non-empty built message ends in a newline. -/
theorem buildMessage_getLast (ts : List Char) (l : Int) (a : List (List Char))
    (h : buildMessage ts l a ≠ []) : (buildMessage ts l a).getLast? = some '\n' := by
  rcases buildMessage_endsNL ts l a with he | hl
  · exact absurd he h
  · exact hl

/-- With a configured sink, writing a newline-terminated payload succeeds unchanged. -/
theorem write_of_newline (T : Int) (s : Sink) (bs : List Char)
    (h : bs.getLast? = some '\n') :
    Logger.Write ⟨T, some s⟩ bs = WriteResult.written bs bs.length := by
  unfold Logger.Write
  rw [h]
  rfl

/-- With a configured sink, writing the empty payload hits the index panic. -/
theorem write_of_empty (T : Int) (s : Sink) :
    Logger.Write ⟨T, some s⟩ [] = WriteResult.panicIndex := rfl

/-- Gate open and non-empty message: the shared plain-call body writes the message. -/
theorem logAt_wrote (T lvl : Int) (s : Sink) (ts : List Char) (a : List (List Char))
    (hT : lvl ≤ T) (hm : buildMessage ts lvl a ≠ []) :
    logAt ⟨T, some s⟩ ts lvl a = CallResult.wrote (buildMessage ts lvl a) := by
  unfold logAt
  rw [if_pos hT, write_of_newline T s _ (buildMessage_getLast ts lvl a hm)]

/-- Gate closed: the shared plain-call body does nothing. -/
theorem logAt_noop (T lvl : Int) (o : Option Sink) (ts : List Char) (a : List (List Char))
    (hT : T < lvl) : logAt ⟨T, o⟩ ts lvl a = CallResult.noop := by
  unfold logAt
  rw [if_neg (not_le.mpr hT)]

/-- Gate open and empty message: the shared plain-call body panics in `Write`. -/
theorem logAt_panic (T lvl : Int) (s : Sink) (ts : List Char) (a : List (List Char))
    (hT : lvl ≤ T) (hm : buildMessage ts lvl a = []) :
    logAt ⟨T, some s⟩ ts lvl a = CallResult.panicked := by
  unfold logAt
  rw [if_pos hT, hm, write_of_empty]

/-- A fatal call whose built message is non-empty writes it and exits with status 1. -/
theorem fatal_exits (T : Int) (s : Sink) (ts : List Char) (a : List (List Char))
    (hm : buildMessage ts LogLevelFatal a ≠ []) :
    Logger.Fatal ⟨T, some s⟩ ts a =
      CallResult.exited 1 (buildMessage ts LogLevelFatal a) := by
  unfold Logger.Fatal
  rw [write_of_newline T s _ (buildMessage_getLast ts LogLevelFatal a hm)]

/-- A fatal call whose built message is empty panics before writing or exiting. -/
theorem fatal_panics (T : Int) (s : Sink) (ts : List Char) (a : List (List Char))
    (hm : buildMessage ts LogLevelFatal a = []) :
    Logger.Fatal ⟨T, some s⟩ ts a = CallResult.panicked := by
  unfold Logger.Fatal
  rw [hm, write_of_empty]

/-- One newline-free non-empty argument emits a single header line. -/
theorem emitArg_one (pre v : List Char) (hv : v ≠ []) (nv : '\n' ∉ v) :
    emitArg pre v = pre ++ v ++ ['\n'] := by
  unfold emitArg
  rw [goSplit_no_sep '\n' v fun c hc e => nv (e ▸ hc)]
  simp [emitLines, hv]

/-- An argument made of two newline-free non-empty lines emits a header line
followed by a space-indented continuation line. -/
theorem emitArg_two (pre x y : List Char) (hx : x ≠ []) (hy : y ≠ [])
    (nx : '\n' ∉ x) (ny : '\n' ∉ y) :
    emitArg pre (x ++ '\n' :: y) =
      pre ++ x ++ ['\n'] ++ (List.replicate pre.length ' ' ++ y ++ ['\n']) := by
  unfold emitArg
  rw [goSplit_append_sep '\n' x y fun c hc e => nx (e ▸ hc),
    goSplit_no_sep '\n' y fun c hc e => ny (e ▸ hc)]
  simp [emitLines, hx, hy]

/-- A doubled newline between two newline-free non-empty lines emits the same
two lines: the empty middle line is dropped. -/
theorem emitArg_gap (pre x y : List Char) (hx : x ≠ []) (hy : y ≠ [])
    (nx : '\n' ∉ x) (ny : '\n' ∉ y) :
    emitArg pre (x ++ '\n' :: '\n' :: y) =
      pre ++ x ++ ['\n'] ++ (List.replicate pre.length ' ' ++ y ++ ['\n']) := by
  unfold emitArg
  rw [goSplit_append_sep '\n' x ('\n' :: y) fun c hc e => nx (e ▸ hc),
    goSplit_cons_self, goSplit_no_sep '\n' y fun c hc e => ny (e ▸ hc)]
  simp [emitLines, hx, hy]

/-- A one-argument call builds exactly that argument's emitted lines. -/
theorem buildMessage_single (ts : List Char) (l : Int) (v : List Char) :
    buildMessage ts l [v] = emitArg (headerOf ts l) v := by
  rw [buildMessage_eq_flatten]
  simp

/-- A two-argument call concatenates both arguments' emitted lines. -/
theorem buildMessage_pair (ts : List Char) (l : Int) (v1 v2 : List Char) :
    buildMessage ts l [v1, v2] =
      emitArg (headerOf ts l) v1 ++ emitArg (headerOf ts l) v2 := by
  rw [buildMessage_eq_flatten]
  simp

/-- With all-empty line lists the line loop emits nothing. -/
theorem emitLines_all_empty (pre : List Char) :
    ∀ (lines : List (List Char)), (∀ p ∈ lines, p = []) →
      ∀ ix, emitLines pre ix lines = [] := by
  intro lines
  induction lines with
  | nil => intro _ _; rfl
  | cons p rest ih =>
      intro h ix
      have hp : p = [] := h p (List.mem_cons_self p rest)
      simp [emitLines, hp, ih (fun q hq => h q (List.mem_cons_of_mem p hq)) (ix + 1)]

/-- Arguments consisting only of newline characters (or empty) build the
empty message: every split segment is empty, every line is skipped. -/
theorem buildMessage_empty_of_newlines (ts : List Char) (l : Int)
    (a : List (List Char)) (h : ∀ v ∈ a, ∀ c ∈ v, c = '\n') :
    buildMessage ts l a = [] := by
  rw [buildMessage_eq_flatten]
  rw [List.flatten_eq_nil_iff]
  intro p hp
  rcases List.mem_map.mp hp with ⟨v, hv, rfl⟩
  exact emitLines_all_empty _ _ (goSplit_all_sep '\n' v (h v hv)) 0

-- ------------------------------------------------------------------
-- Claim theorems
-- ------------------------------------------------------------------

/-- C1: for every gated level L in {Trace, Debug, Verbose, Info, Warn, Error}
and every threshold T, a plain logging call at level L (shared body `logAt`,
sink configured, built message non-empty) builds and writes the message iff
T ≥ L in the level ordering, and is a no-op leaving everything untouched when
T < L. -/
theorem c1_threshold_gating (lvl T : Int) (s : Sink) (ts : List Char)
    (a : List (List Char)) (_hlvl : lvl ∈ gatedLevels)
    (hm : buildMessage ts lvl a ≠ []) :
    (lvl ≤ T → logAt ⟨T, some s⟩ ts lvl a = CallResult.wrote (buildMessage ts lvl a)) ∧
    (T < lvl → logAt ⟨T, some s⟩ ts lvl a = CallResult.noop) :=
  ⟨fun hT => logAt_wrote T lvl s ts a hT hm, fun hT => logAt_noop T lvl (some s) ts a hT⟩

/-- C1 witness: level Debug at threshold Debug writes, and the suppression
direction is available at the same input. -/
theorem c1_threshold_gating_witness :
    (LogLevelDebug ≤ (8 : Int) →
      logAt ⟨8, some Sink.stderr⟩ ts0 LogLevelDebug [['x']] =
        CallResult.wrote (buildMessage ts0 LogLevelDebug [['x']])) ∧
    ((8 : Int) < LogLevelDebug →
      logAt ⟨8, some Sink.stderr⟩ ts0 LogLevelDebug [['x']] = CallResult.noop) :=
  c1_threshold_gating LogLevelDebug 8 Sink.stderr ts0 [['x']] (by decide) (by decide)

/-- C2: one argument with one embedded newline and both lines non-empty, at
level Info with header P of length N, builds exactly
P + line1 + newline + N spaces + line2 + newline. -/
theorem c2_multiline_info (ts s1 s2 : List Char) (h1 : s1 ≠ []) (h2 : s2 ≠ [])
    (n1 : '\n' ∉ s1) (n2 : '\n' ∉ s2) :
    buildMessage ts LogLevelInfo [s1 ++ '\n' :: s2] =
      headerOf ts LogLevelInfo ++ s1 ++ ['\n'] ++
        List.replicate (headerOf ts LogLevelInfo).length ' ' ++ s2 ++ ['\n'] := by
  rw [buildMessage_single, emitArg_two _ _ _ h1 h2 n1 n2]
  simp [List.append_assoc]

/-- C2 witness at the spec's example input. -/
theorem c2_multiline_info_witness :
    buildMessage ts0 LogLevelInfo ["line1".toList ++ '\n' :: "line2".toList] =
      headerOf ts0 LogLevelInfo ++ "line1".toList ++ ['\n'] ++
        List.replicate (headerOf ts0 LogLevelInfo).length ' ' ++ "line2".toList ++ ['\n'] :=
  c2_multiline_info ts0 "line1".toList "line2".toList
    (by decide) (by decide) (by decide) (by decide)

/-- C3 counterexample: with two one-line arguments, the second argument's
first line also receives the timestamp+level header; the claim's form with
header-length spaces before the second argument is not what the builder
produces. -/
theorem c3_counterexample :
    buildMessage ts0 LogLevelInfo [['a'], ['b']] =
      headerOf ts0 LogLevelInfo ++ ['a', '\n'] ++
        (headerOf ts0 LogLevelInfo ++ ['b', '\n']) ∧
    buildMessage ts0 LogLevelInfo [['a'], ['b']] ≠
      headerOf ts0 LogLevelInfo ++ ['a', '\n'] ++
        (List.replicate (headerOf ts0 LogLevelInfo).length ' ' ++ ['b', '\n']) :=
  ⟨by decide, by decide⟩

/-- C3 amended: within one argument, non-empty lines after index 0 are
indented with header-length spaces, but the line at index 0 of every argument
(not only the first) carries the timestamp+level header; only empty lines and
in-argument continuation lines never carry it. -/
theorem c3_header_per_argument (ts : List Char) (l : Int) (x y z : List Char)
    (hx : x ≠ []) (hy : y ≠ []) (hz : z ≠ [])
    (nx : '\n' ∉ x) (ny : '\n' ∉ y) (nz : '\n' ∉ z) :
    buildMessage ts l [x ++ '\n' :: y, z] =
      headerOf ts l ++ x ++ ['\n'] ++
        (List.replicate (headerOf ts l).length ' ' ++ y ++ ['\n']) ++
        (headerOf ts l ++ z ++ ['\n']) := by
  rw [buildMessage_pair, emitArg_two _ _ _ hx hy nx ny, emitArg_one _ _ hz nz]

/-- C3 amended witness at a concrete two-argument input. -/
theorem c3_header_per_argument_witness :
    buildMessage ts0 LogLevelInfo [['a'] ++ '\n' :: ['b'], ['c']] =
      headerOf ts0 LogLevelInfo ++ ['a'] ++ ['\n'] ++
        (List.replicate (headerOf ts0 LogLevelInfo).length ' ' ++ ['b'] ++ ['\n']) ++
        (headerOf ts0 LogLevelInfo ++ ['c'] ++ ['\n']) :=
  c3_header_per_argument ts0 LogLevelInfo ['a'] ['b'] ['c']
    (by decide) (by decide) (by decide) (by decide) (by decide) (by decide)

/-- C4: an empty line arising from consecutive newlines is dropped entirely:
the built message for line1-newline-newline-line2 consists of exactly the two
emitted lines, with no blank padded line in between. -/
theorem c4_empty_line_dropped (ts s1 s2 : List Char) (h1 : s1 ≠ []) (h2 : s2 ≠ [])
    (n1 : '\n' ∉ s1) (n2 : '\n' ∉ s2) :
    buildMessage ts LogLevelInfo [s1 ++ '\n' :: '\n' :: s2] =
      headerOf ts LogLevelInfo ++ s1 ++ ['\n'] ++
        List.replicate (headerOf ts LogLevelInfo).length ' ' ++ s2 ++ ['\n'] := by
  rw [buildMessage_single, emitArg_gap _ _ _ h1 h2 n1 n2]
  simp [List.append_assoc]

/-- C4 witness at the spec's example input. -/
theorem c4_empty_line_dropped_witness :
    buildMessage ts0 LogLevelInfo ["line1".toList ++ '\n' :: '\n' :: "line2".toList] =
      headerOf ts0 LogLevelInfo ++ "line1".toList ++ ['\n'] ++
        List.replicate (headerOf ts0 LogLevelInfo).length ' ' ++ "line2".toList ++ ['\n'] :=
  c4_empty_line_dropped ts0 "line1".toList "line2".toList
    (by decide) (by decide) (by decide) (by decide)

/-- C5 counterexample: `Debugf` with formatted message containing an embedded
newline does pass through the multi-line builder: the written payload carries
continuation indentation and is not the verbatim timestamp-tag-payload form
the claim describes. -/
theorem c5_counterexample :
    Logger.Debugf ⟨LogLevelDebug, some Sink.stderr⟩ ts0 ('a' :: '\n' :: ['b']) =
      CallResult.wrote (headerOf ts0 LogLevelDebug ++ 'a' :: '\n' ::
        (List.replicate (headerOf ts0 LogLevelDebug).length ' ' ++ ['b', '\n'])) ∧
    Logger.Debugf ⟨LogLevelDebug, some Sink.stderr⟩ ts0 ('a' :: '\n' :: ['b']) ≠
      CallResult.wrote (ts0 ++ ' ' :: 'D' :: ' ' :: 'a' :: '\n' :: ['b', '\n']) :=
  ⟨by decide, by decide⟩

/-- C5 amended: each formatted variant `Lf` produces its message by printf
substitution and then feeds the single resulting string through the same
multi-line builder as the plain variant, so `Lf` with formatted message m
behaves exactly like `L` applied to the one-argument list [m]; embedded
newlines receive continuation indentation and empty-line suppression. -/
theorem c5_formatted_uses_builder (w : Logger) (ts msg : List Char) :
    Logger.Tracef w ts msg = Logger.Trace w ts [msg] ∧
    Logger.Debugf w ts msg = Logger.Debug w ts [msg] ∧
    Logger.Verbosef w ts msg = Logger.Verbose w ts [msg] ∧
    Logger.Infof w ts msg = Logger.Info w ts [msg] ∧
    Logger.Warnf w ts msg = Logger.Warn w ts [msg] ∧
    Logger.Errorf w ts msg = Logger.Error w ts [msg] :=
  ⟨rfl, rfl, rfl, rfl, rfl, rfl⟩

/-- C6: the write primitive's trailing-newline handling is idempotent on
non-empty payloads: a payload whose last byte is a newline is written
unchanged, and otherwise exactly one newline is appended. -/
theorem c6_write_trailing_newline (T : Int) (s : Sink) (bs : List Char)
    (h : bs ≠ []) :
    (bs.getLast? = some '\n' →
      Logger.Write ⟨T, some s⟩ bs = WriteResult.written bs bs.length) ∧
    (bs.getLast? ≠ some '\n' →
      Logger.Write ⟨T, some s⟩ bs = WriteResult.written (bs ++ ['\n']) (bs.length + 1)) := by
  constructor
  · intro hn
    exact write_of_newline T s bs hn
  · intro hn
    cases hc : bs.getLast? with
    | none => exact absurd (List.getLast?_eq_none_iff.mp hc) h
    | some c =>
        have hcn : ¬ (c = '\n') := fun e => hn (by rw [hc, e])
        unfold Logger.Write
        rw [hc]
        simp [hcn]

/-- C6 witness: a one-byte payload without a trailing newline gains exactly
one. -/
theorem c6_write_trailing_newline_witness :
    ((['x'] : List Char).getLast? = some '\n' →
      Logger.Write ⟨0, some Sink.stderr⟩ ['x'] =
        WriteResult.written ['x'] (['x'] : List Char).length) ∧
    ((['x'] : List Char).getLast? ≠ some '\n' →
      Logger.Write ⟨0, some Sink.stderr⟩ ['x'] =
        WriteResult.written (['x'] ++ ['\n']) ((['x'] : List Char).length + 1)) :=
  c6_write_trailing_newline 0 Sink.stderr ['x'] (by decide)

/-- C7 counterexample: `Fatal` with no arguments builds the empty message and
panics inside `Write` before anything is written and before `os.Exit(1)` is
reached, so the write does not precede termination on every path. -/
theorem c7_counterexample :
    Logger.Fatal ⟨LogLevelTrace, some Sink.stderr⟩ ts0 [] = CallResult.panicked := by
  decide

/-- C7 amended: for every threshold, `Fatal` and `Fatalf` with a non-empty
built message write it to the sink and then terminate with exit status 1,
the write preceding the exit; when the built message is empty the call
panics inside `Write` before any write occurs. -/
theorem c7_fatal_ignores_threshold (T : Int) (s : Sink) (ts : List Char)
    (a b : List (List Char)) (m : List Char)
    (hm : buildMessage ts LogLevelFatal a ≠ [])
    (hm2 : buildMessage ts LogLevelFatal [m] ≠ [])
    (hb : buildMessage ts LogLevelFatal b = []) :
    Logger.Fatal ⟨T, some s⟩ ts a =
      CallResult.exited 1 (buildMessage ts LogLevelFatal a) ∧
    Logger.Fatalf ⟨T, some s⟩ ts m =
      CallResult.exited 1 (buildMessage ts LogLevelFatal [m]) ∧
    Logger.Fatal ⟨T, some s⟩ ts b = CallResult.panicked := by
  refine ⟨fatal_exits T s ts a hm, ?_, fatal_panics T s ts b hb⟩
  unfold Logger.Fatalf
  rw [write_of_newline T s _ (buildMessage_getLast ts LogLevelFatal [m] hm2)]

/-- C7 amended witness at the most restrictive threshold. -/
theorem c7_fatal_ignores_threshold_witness :
    Logger.Fatal ⟨LogLevelFatal, some Sink.stderr⟩ ts0 [['x']] =
      CallResult.exited 1 (buildMessage ts0 LogLevelFatal [['x']]) ∧
    Logger.Fatalf ⟨LogLevelFatal, some Sink.stderr⟩ ts0 ['y'] =
      CallResult.exited 1 (buildMessage ts0 LogLevelFatal [['y']]) ∧
    Logger.Fatal ⟨LogLevelFatal, some Sink.stderr⟩ ts0 [] = CallResult.panicked :=
  c7_fatal_ignores_threshold LogLevelFatal Sink.stderr ts0 [['x']] [] ['y']
    (by decide) (by decide) (by decide)

/-- C8 counterexample: the revisions that define the None sentinel give it the
numeric value 0; in the current revision the value 0 is `LogLevelInfo`, and a
threshold of 0 does not suppress Info: the call writes.  No constant of the
current level set is a None sentinel. -/
theorem c8_counterexample :
    LogLevelInfo = (0 : Int) ∧
    Logger.Info ⟨0, some Sink.stderr⟩ ts0 [['x']] =
      CallResult.wrote (headerOf ts0 LogLevelInfo ++ ['x', '\n']) :=
  ⟨rfl, by decide⟩

/-- C8 amended: the current revision has no None sentinel; the most
restrictive constant `LogLevelFatal` plays the silent role: with the
threshold set to `LogLevelFatal`, no Trace, Debug, Verbose, Info, Warn or
Error call writes anything, while `Fatal` still writes and exits. -/
theorem c8_fatal_threshold_silences (lvl : Int) (hl : lvl ∈ gatedLevels)
    (o : Option Sink) (s : Sink) (ts : List Char) (a : List (List Char))
    (hm : buildMessage ts LogLevelFatal a ≠ []) :
    logAt ⟨LogLevelFatal, o⟩ ts lvl a = CallResult.noop ∧
    Logger.Fatal ⟨LogLevelFatal, some s⟩ ts a =
      CallResult.exited 1 (buildMessage ts LogLevelFatal a) := by
  constructor
  · refine logAt_noop LogLevelFatal lvl o ts a ?_
    have hl' : lvl = LogLevelTrace ∨ lvl = LogLevelDebug ∨ lvl = LogLevelVerbose ∨
        lvl = LogLevelInfo ∨ lvl = LogLevelWarn ∨ lvl = LogLevelError := by
      simpa [gatedLevels] using hl
    rcases hl' with rfl | rfl | rfl | rfl | rfl | rfl <;> decide
  · exact fatal_exits LogLevelFatal s ts a hm

/-- C8 amended witness: threshold Fatal suppresses an Info-level call while a
fatal call still writes and exits. -/
theorem c8_fatal_threshold_silences_witness :
    logAt ⟨LogLevelFatal, some Sink.stderr⟩ ts0 LogLevelInfo [['x']] = CallResult.noop ∧
    Logger.Fatal ⟨LogLevelFatal, some Sink.stderr⟩ ts0 [['x']] =
      CallResult.exited 1 (buildMessage ts0 LogLevelFatal [['x']]) :=
  c8_fatal_threshold_silences LogLevelInfo (by decide) (some Sink.stderr) Sink.stderr
    ts0 [['x']] (by decide)

/-- C9 (code bug): `SetOutput` with a nil argument resets the sink to standard
error but then panics dereferencing the nil argument for its name, instead of
returning normally as the nil-reset branch intends; with a non-nil argument
the sink becomes exactly that argument and the level field is unchanged (at
level Info the self-describing debug message is gated off). -/
theorem c9_setoutput_nil_dereference :
    Logger.SetOutput ⟨LogLevelInfo, some Sink.stderr⟩ ts0 none =
      SetOutputResult.panicked ⟨LogLevelInfo, some Sink.stderr⟩ ∧
    Logger.SetOutput ⟨LogLevelInfo, some Sink.stderr⟩ ts0 (some (Sink.handle ['f'])) =
      SetOutputResult.ok ⟨LogLevelInfo, some (Sink.handle ['f'])⟩ CallResult.noop :=
  ⟨rfl, by decide⟩

/-- C10: an enabled plain call whose arguments are all empty or made only of
newline characters builds the empty message, and the subsequent `Write` of the
empty payload hits the out-of-range index of the last byte, so the call
panics instead of writing or returning normally. -/
theorem c10_newline_only_args_panic (lvl T : Int) (s : Sink) (ts : List Char)
    (a : List (List Char)) (_hl : lvl ∈ gatedLevels) (hT : lvl ≤ T)
    (ha : ∀ v ∈ a, ∀ c ∈ v, c = '\n') :
    buildMessage ts lvl a = [] ∧
    Logger.Write ⟨T, some s⟩ (buildMessage ts lvl a) = WriteResult.panicIndex ∧
    logAt ⟨T, some s⟩ ts lvl a = CallResult.panicked := by
  have hm := buildMessage_empty_of_newlines ts lvl a ha
  refine ⟨hm, ?_, logAt_panic T lvl s ts a hT hm⟩
  rw [hm]
  exact write_of_empty T s

/-- C10 witness: an Info call on one newline-only argument at threshold Info
panics. -/
theorem c10_newline_only_args_panic_witness :
    buildMessage ts0 LogLevelInfo [['\n']] = [] ∧
    Logger.Write ⟨0, some Sink.stderr⟩ (buildMessage ts0 LogLevelInfo [['\n']]) =
      WriteResult.panicIndex ∧
    logAt ⟨0, some Sink.stderr⟩ ts0 LogLevelInfo [['\n']] = CallResult.panicked :=
  c10_newline_only_args_panic LogLevelInfo 0 Sink.stderr ts0 [['\n']]
    (by decide) (by decide) (by decide)
